import Mathlib

/-!
Shallow embedding of `crates/wast/src/ast/types.rs`: the type grammar of the
WebAssembly text format (value types, global/table/memory types, function
signatures, and type uses).  Parsers are modelled as functions from a flat
token stream to `Except` of a result paired with the remaining stream.
The token cursor primitives (peek, peek2, parens, is_empty, optional parse)
live in `crates/wast/src/parser.rs`, which is an external collaborator of the
type grammar; they are modelled from the spec's description of the cursor
abstraction.
-/

/-- Decidable equality for parse outcomes, used to evaluate the embedded
parsers on concrete token streams. -/
instance {ε α : Type} [DecidableEq ε] [DecidableEq α] : DecidableEq (Except ε α) :=
  fun a b =>
    match a, b with
    | .ok x, .ok y =>
      if h : x = y then .isTrue (by rw [h]) else .isFalse (by intro hc; cases hc; exact h rfl)
    | .error x, .error y =>
      if h : x = y then .isTrue (by rw [h]) else .isFalse (by intro hc; cases hc; exact h rfl)
    | .ok _, .error _ => .isFalse (by intro hc; cases hc)
    | .error _, .ok _ => .isFalse (by intro hc; cases hc)

namespace Wast

/-- Modelled from the spec: token kinds supplied by the external tokenizer.
A flat stream of parenthesis tokens, keyword tokens, symbolic-identifier
tokens (`$x`), display-name annotation tokens, and unsigned integer
literal tokens. -/
inductive Token where
  | lparen : Token
  | rparen : Token
  | kw : String → Token
  | id : String → Token
  | name : String → Token
  | nat : Nat → Token
deriving DecidableEq, Repr

/-- Modelled from the spec: the two error kinds of the error-handling design.
A lookahead dispatch failure carries the set of expected alternatives; a
grammar-order violation (raised by `Parser::error`) carries a message. -/
inductive PErr where
  | lookahead : List String → PErr
  | message : String → PErr
deriving DecidableEq, Repr

/-- Modelled from the spec: non-consuming single-token lookahead for a
keyword (`parser.peek::<kw::foo>()`). -/
def peekKw (s : String) (ts : List Token) : Bool :=
  match ts with
  | Token.kw k :: _ => k == s
  | _ => false

/-- Modelled from the spec: non-consuming double-token lookahead
(`parser.peek2::<kw::foo>()`): true when the token after an opening
parenthesis is the given keyword. -/
def peek2Kw (s : String) (ts : List Token) : Bool :=
  match ts with
  | Token.lparen :: Token.kw k :: _ => k == s
  | _ => false

/-- Modelled from the spec: `parser.is_empty()`, the "no tokens remain in the
current group" predicate — true at a closing parenthesis or at end of input. -/
def isEmptyG (ts : List Token) : Bool :=
  match ts with
  | [] => true
  | Token.rparen :: _ => true
  | _ => false

/-- Modelled from the spec: `parser.parens(f)` runs the sub-parse `f` strictly
inside one parenthesized group and requires the group be fully consumed. -/
def parens {α : Type} (inner : List Token → Except PErr (α × List Token))
    (ts : List Token) : Except PErr (α × List Token) :=
  match ts with
  | Token.lparen :: rest =>
    match inner rest with
    | .ok (a, Token.rparen :: rest2) => .ok (a, rest2)
    | .ok (_, _) => .error (.lookahead [")"])
    | .error e => .error e
  | _ => .error (.lookahead ["("])

/-- Modelled from the spec: optional-presence parse of a symbolic identifier
token (`parser.parse::<Option<ast::Id>>()`); never fails. -/
def parseOptId (ts : List Token) : Option String × List Token :=
  match ts with
  | Token.id s :: rest => (some s, rest)
  | _ => (none, ts)

/-- Modelled from the spec: optional-presence parse of a display-name
annotation token (`parser.parse::<Option<ast::NameAnnotation>>()`);
never fails. -/
def parseOptName (ts : List Token) : Option String × List Token :=
  match ts with
  | Token.name s :: rest => (some s, rest)
  | _ => (none, ts)

/-- Modelled from the spec: non-consuming check that the next token is a
valid unsigned 32-bit literal (`parser.peek::<u32>()`). -/
def peekU32 (ts : List Token) : Bool :=
  match ts with
  | Token.nat n :: _ => n < 2 ^ 32
  | _ => false

/-- Modelled from the spec: consuming parse of an unsigned 32-bit literal
(`parser.parse::<u32>()`). -/
def parseU32 (ts : List Token) : Except PErr (Nat × List Token) :=
  match ts with
  | Token.nat n :: rest =>
    if n < 2 ^ 32 then .ok (n, rest) else .error (.message "invalid u32 literal")
  | _ => .error (.lookahead ["an unsigned 32-bit integer"])

/-- The value types for a wasm module (`enum ValType`). -/
inductive ValType where
  | I32 | I64 | F32 | F64 | Anyref | Funcref | V128 | Nullref
deriving DecidableEq, Repr

/-- The alternatives attempted by the `lookahead1` chain of
`ValType::parse`, in source order; `l.error()` reports exactly these. -/
def valTypeExpected : List String :=
  ["i32", "i64", "f32", "f64", "anyref", "funcref", "anyfunc", "nullref", "v128"]

/-- Embedding of `impl Parse for ValType`: a `lookahead1` chain over nine
keywords (the deprecated `anyfunc` also yields `Funcref`); on no match,
`l.error()` lists every attempted alternative. -/
def ValType.parse (ts : List Token) : Except PErr (ValType × List Token) :=
  if peekKw "i32" ts then .ok (.I32, ts.tail)
  else if peekKw "i64" ts then .ok (.I64, ts.tail)
  else if peekKw "f32" ts then .ok (.F32, ts.tail)
  else if peekKw "f64" ts then .ok (.F64, ts.tail)
  else if peekKw "anyref" ts then .ok (.Anyref, ts.tail)
  else if peekKw "funcref" ts then .ok (.Funcref, ts.tail)
  else if peekKw "anyfunc" ts then .ok (.Funcref, ts.tail)
  else if peekKw "nullref" ts then .ok (.Nullref, ts.tail)
  else if peekKw "v128" ts then .ok (.V128, ts.tail)
  else .error (.lookahead valTypeExpected)

/-- Type for a `global` in a wasm module (`struct GlobalType`). -/
structure GlobalType where
  ty : ValType
  mutable : Bool
deriving DecidableEq, Repr

/-- Embedding of `impl Parse for GlobalType`: if the token after an opening
parenthesis is `mut`, parse the grouped `(mut <valtype>)` form with
`mutable = true`; otherwise parse a bare value type with `mutable = false`. -/
def GlobalType.parse (ts : List Token) : Except PErr (GlobalType × List Token) :=
  if peek2Kw "mut" ts then
    parens (fun ts1 =>
      match ts1 with
      | Token.kw "mut" :: rest =>
        match ValType.parse rest with
        | .ok (ty, rest2) => .ok ({ ty := ty, mutable := true }, rest2)
        | .error e => .error e
      | _ => .error (.lookahead ["mut"])) ts
  else
    match ValType.parse ts with
    | .ok (ty, rest) => .ok ({ ty := ty, mutable := false }, rest)
    | .error e => .error e

/-- List of different kinds of table types (`enum TableElemType`). -/
inductive TableElemType where
  | Funcref | Anyref | Nullref
deriving DecidableEq, Repr

/-- Embedding of `impl Parse for TableElemType`: legacy support for
`anyfunc` first (yielding `Funcref`), then a `lookahead1` chain over
`funcref`, `anyref`, `nullref`. -/
def TableElemType.parse (ts : List Token) : Except PErr (TableElemType × List Token) :=
  if peekKw "anyfunc" ts then .ok (.Funcref, ts.tail)
  else if peekKw "funcref" ts then .ok (.Funcref, ts.tail)
  else if peekKw "anyref" ts then .ok (.Anyref, ts.tail)
  else if peekKw "nullref" ts then .ok (.Nullref, ts.tail)
  else .error (.lookahead ["funcref", "anyref", "nullref"])

/-- Embedding of `impl Peek for TableElemType`: `funcref`, `anyref`, or the
legacy `anyfunc` (the source's peek does not mention `nullref`). -/
def TableElemType.peek (ts : List Token) : Bool :=
  peekKw "funcref" ts || peekKw "anyref" ts || peekKw "anyfunc" ts

/-- Min/max limits used for tables/memories (`struct Limits`). -/
structure Limits where
  min : Nat
  max : Option Nat
deriving DecidableEq, Repr

/-- Embedding of `impl Parse for Limits`: one required u32 minimum, then a
maximum exactly when the next token peeks as a u32. -/
def Limits.parse (ts : List Token) : Except PErr (Limits × List Token) :=
  match parseU32 ts with
  | .error e => .error e
  | .ok (mn, ts1) =>
    if peekU32 ts1 then
      match parseU32 ts1 with
      | .error e => .error e
      | .ok (mx, ts2) => .ok ({ min := mn, max := some mx }, ts2)
    else
      .ok ({ min := mn, max := none }, ts1)

/-- Configuration for a table of a wasm module (`struct TableType`). -/
structure TableType where
  limits : Limits
  elem : TableElemType
deriving DecidableEq, Repr

/-- Embedding of `impl Parse for TableType`: limits then element type. -/
def TableType.parse (ts : List Token) : Except PErr (TableType × List Token) :=
  match Limits.parse ts with
  | .error e => .error e
  | .ok (l, ts1) =>
    match TableElemType.parse ts1 with
    | .error e => .error e
    | .ok (e, ts2) => .ok ({ limits := l, elem := e }, ts2)

/-- Configuration for a memory of a wasm module (`struct MemoryType`). -/
structure MemoryType where
  limits : Limits
  shared : Bool
deriving DecidableEq, Repr

/-- Embedding of `impl Parse for MemoryType`: limits, then an optional
trailing `shared` keyword. -/
def MemoryType.parse (ts : List Token) : Except PErr (MemoryType × List Token) :=
  match Limits.parse ts with
  | .error e => .error e
  | .ok (l, ts1) =>
    match ts1 with
    | Token.kw "shared" :: rest => .ok ({ limits := l, shared := true }, rest)
    | _ => .ok ({ limits := l, shared := false }, ts1)

/-- A function type with parameters and results (`struct FunctionType`).
Each parameter carries an optional symbolic identifier, an optional
display-name annotation, and a value type. -/
structure FunctionType where
  params : List (Option String × Option String × ValType)
  results : List ValType
deriving DecidableEq, Repr

/-- The `FunctionType { params: Vec::new(), results: Vec::new() }` initial
accumulator. -/
def FunctionType.empty : FunctionType := { params := [], results := [] }

/-- The grammar-order violation message raised by `finish_parse` when a
`param` group follows an accumulated result. -/
def orderErrMsg : String :=
  "result before parameter (or unexpected token): cannot list params after results"

/-- Embedding of the `while parse_more && !p.is_empty()` loop of
`FunctionType::finish_parse`: append further anonymous parameters until
the group is exhausted.  Fuel is an upper bound on iterations; the entry
point supplies `ts.length + 1`, which never runs out. -/
def parseMoreParamsAux : Nat → FunctionType → List Token →
    Except PErr (FunctionType × List Token)
  | 0, _, _ => .error (.message "fuel exhausted")
  | Nat.succ n, acc, ts =>
    if isEmptyG ts then .ok (acc, ts)
    else
      match ValType.parse ts with
      | .error e => .error e
      | .ok (ty, ts2) =>
        parseMoreParamsAux n { acc with params := acc.params ++ [(none, none, ty)] } ts2

/-- Entry point of the shorthand anonymous-parameter loop. -/
def parseMoreParams (acc : FunctionType) (ts : List Token) :
    Except PErr (FunctionType × List Token) :=
  parseMoreParamsAux (ts.length + 1) acc ts

/-- Embedding of the `while !p.is_empty()` loop of the `result` branch of
`FunctionType::finish_parse`: append result value types until the group
is exhausted. -/
def parseResultsAux : Nat → FunctionType → List Token →
    Except PErr (FunctionType × List Token)
  | 0, _, _ => .error (.message "fuel exhausted")
  | Nat.succ n, acc, ts =>
    if isEmptyG ts then .ok (acc, ts)
    else
      match ValType.parse ts with
      | .error e => .error e
      | .ok (ty, ts2) =>
        parseResultsAux n { acc with results := acc.results ++ [ty] } ts2

/-- Entry point of the result-types loop. -/
def parseResults (acc : FunctionType) (ts : List Token) :
    Except PErr (FunctionType × List Token) :=
  parseResultsAux (ts.length + 1) acc ts

/-- Embedding of the closure passed to `parser.parens` inside
`FunctionType::finish_parse`: dispatch on the leading `param`/`result`
keyword of one group and fold the group into the accumulator.  In the
`param` branch the ordering check (`self.results.len() > 0`) comes first,
then the empty-group no-op, then optional identifier/display-name (only
when names are allowed), then exactly one value type when a name was
present or the anonymous shorthand loop otherwise. -/
def paramResultGroup (allowNames : Bool) (acc : FunctionType) (ts : List Token) :
    Except PErr (FunctionType × List Token) :=
  if peekKw "param" ts then
    if acc.results.length > 0 then
      .error (.message orderErrMsg)
    else
      let ts1 := ts.tail
      if isEmptyG ts1 then .ok (acc, ts1)
      else
        let (pid, ts2) := if allowNames then parseOptId ts1 else (none, ts1)
        let (pname, ts3) := if allowNames then parseOptName ts2 else (none, ts2)
        let parseMore := pid.isNone && pname.isNone
        match ValType.parse ts3 with
        | .error e => .error e
        | .ok (ty, ts4) =>
          let acc2 := { acc with params := acc.params ++ [(pid, pname, ty)] }
          if parseMore then parseMoreParams acc2 ts4 else .ok (acc2, ts4)
  else if peekKw "result" ts then
    parseResults acc ts.tail
  else
    .error (.lookahead ["param", "result"])

/-- Embedding of the outer `while parser.peek2::<kw::param>() ||
parser.peek2::<kw::result>()` loop of `FunctionType::finish_parse`.  Fuel
is an upper bound on iterations; the entry point supplies
`ts.length + 1`, which never runs out. -/
def finishParseAux (allowNames : Bool) : Nat → FunctionType → List Token →
    Except PErr (FunctionType × List Token)
  | 0, _, _ => .error (.message "fuel exhausted")
  | Nat.succ n, acc, ts =>
    if peek2Kw "param" ts || peek2Kw "result" ts then
      match parens (paramResultGroup allowNames acc) ts with
      | .error e => .error e
      | .ok (acc2, ts2) => finishParseAux allowNames n acc2 ts2
    else
      .ok (acc, ts)

/-- Embedding of `FunctionType::finish_parse`. -/
def FunctionType.finish_parse (allowNames : Bool) (acc : FunctionType)
    (ts : List Token) : Except PErr (FunctionType × List Token) :=
  finishParseAux allowNames (ts.length + 1) acc ts

/-- Embedding of `impl Parse for FunctionType`: the `func` keyword, then the
group-folding loop with names allowed. -/
def FunctionType.parse (ts : List Token) : Except PErr (FunctionType × List Token) :=
  match ts with
  | Token.kw "func" :: rest => FunctionType.finish_parse true FunctionType.empty rest
  | _ => .error (.lookahead ["func"])

/-- A symbolic-or-numeric reference to a type, resolved by a later pass
(`ast::Index`). -/
inductive Index where
  | num : Nat → Index
  | id : String → Index
deriving DecidableEq, Repr

/-- Modelled from the spec: consuming parse of a type-reference token
(`parser.parse::<ast::Index>()`), symbolic or numeric. -/
def parseIndex (ts : List Token) : Except PErr (Index × List Token) :=
  match ts with
  | Token.nat n :: rest => .ok (.num n, rest)
  | Token.id s :: rest => .ok (.id s, rest)
  | _ => .error (.lookahead ["an index"])

/-- A type declaration in a module (`struct Type`, renamed because `Type` is
reserved in Lean): an optional identifier and the declared function type. -/
structure TypeDecl where
  id : Option String
  func : FunctionType
deriving DecidableEq, Repr

/-- Embedding of `impl Parse for Type`: the `type` keyword, an optional
identifier, then a parenthesized `FunctionType`. -/
def TypeDecl.parse (ts : List Token) : Except PErr (TypeDecl × List Token) :=
  match ts with
  | Token.kw "type" :: rest =>
    let (tid, ts1) := parseOptId rest
    match parens FunctionType.parse ts1 with
    | .error e => .error e
    | .ok (f, ts2) => .ok ({ id := tid, func := f }, ts2)
  | _ => .error (.lookahead ["type"])

/-- A reference to a type defined in this module (`struct TypeUse`): the
span and index of the `(type …)` clause when present, plus the inline
function type (empty when nothing was written inline).  Spans are
modelled as the number of tokens remaining at the `cur_span` call. -/
structure TypeUse where
  index_span : Option Nat
  index : Option Index
  ty : FunctionType
deriving DecidableEq, Repr

/-- Embedding of the leading optional `(type <index>)` clause of
`TypeUse::parse_allow_names`: when the token after an opening parenthesis
is `type`, parse the group and record the current span (modelled as the
remaining token count) together with the index. -/
def typeUseIndexClause (ts : List Token) :
    Except PErr (Option (Nat × Index) × List Token) :=
  if peek2Kw "type" ts then
    match parens (fun ts1 =>
      match ts1 with
      | Token.kw "type" :: rest =>
        match parseIndex rest with
        | .ok (i, rest2) => .ok ((rest.length, i), rest2)
        | .error e => .error e
      | _ => .error (.lookahead ["type"])) ts with
    | .ok (pair, ts2) => .ok (some pair, ts2)
    | .error e => .error e
  else .ok (none, ts)

/-- Embedding of `TypeUse::parse_allow_names`: an optional leading
parenthesized `(type <index>)` clause recorded with its span, then an
optional inline signature parsed by `finish_parse` only when the next
group starts with `param` or `result`. -/
def TypeUse.parse_allow_names (allowNames : Bool) (ts : List Token) :
    Except PErr (TypeUse × List Token) :=
  match typeUseIndexClause ts with
  | .error e => .error e
  | .ok (idx, ts2) =>
    let (sp, ix) :=
      match idx with
      | some (a, b) => (some a, some b)
      | none => (none, none)
    if peek2Kw "param" ts2 || peek2Kw "result" ts2 then
      match FunctionType.finish_parse allowNames FunctionType.empty ts2 with
      | .error e => .error e
      | .ok (ty, ts3) => .ok ({ index_span := sp, index := ix, ty := ty }, ts3)
    else
      .ok ({ index_span := sp, index := ix, ty := FunctionType.empty }, ts2)

/-- Embedding of `TypeUse::parse_no_names`. -/
def TypeUse.parse_no_names (ts : List Token) : Except PErr (TypeUse × List Token) :=
  TypeUse.parse_allow_names false ts

/-- Embedding of `impl Parse for TypeUse`: names allowed by default. -/
def TypeUse.parse (ts : List Token) : Except PErr (TypeUse × List Token) :=
  TypeUse.parse_allow_names true ts

/-- Helper: a `parens` sub-parse that succeeds but does not stop at the
closing parenthesis makes the group fail the fully-consumed check. -/
theorem parens_not_closed {α : Type} (inner : List Token → Except PErr (α × List Token))
    (a : α) (rest rest2 : List Token) (t : Token)
    (h : inner rest = .ok (a, t :: rest2)) (ht : t ≠ Token.rparen) :
    parens inner (Token.lparen :: rest) = .error (.lookahead [")"]) := by
  simp only [parens, h]
  cases t <;> simp_all

/-- C5: the code is at odds with the claim here — `TableElemType` variant
dispatch accepts `nullref` (yielding the `Nullref` variant), but the
non-consuming peek predicate rejects it, so pure lookahead and variant
dispatch disagree on the `nullref` token. -/
theorem c5_nullref_peek_disagrees_with_parse :
    TableElemType.parse [Token.kw "nullref"] = .ok (.Nullref, [])
    ∧ TableElemType.peek [Token.kw "nullref"] = false := by
  exact ⟨by decide, by decide⟩

/-- C6 counterexample: on an unrecognized token the `ValType` error does not
enumerate exactly the eight value-type keywords — the attempted-alternative
list also contains the deprecated `anyfunc` alias, nine keywords in all. -/
theorem c6_counterexample_expected_list_has_nine_keywords :
    ValType.parse [Token.kw "i31"] = .error (.lookahead valTypeExpected)
    ∧ ValType.parse [Token.kw "i31"] ≠
        .error (.lookahead ["i32", "i64", "f32", "f64", "anyref", "funcref", "v128", "nullref"])
    ∧ "anyfunc" ∈ valTypeExpected
    ∧ "anyfunc" ∉ ["i32", "i64", "f32", "f64", "anyref", "funcref", "v128", "nullref"] := by
  exact ⟨by decide, by decide, by decide, by decide⟩

/-- C3: in `TypeUse` parsing the leading `(type <index>)` clause and the
inline signature are independently optional: `(type 3)` alone yields
index 3 with an empty inline signature; a bare `(param f32)` yields an
absent index and one anonymous `f32` parameter; empty input yields an
absent index and an empty signature. -/
theorem c3_typeuse_optional_parts :
    TypeUse.parse_allow_names true
        [Token.lparen, Token.kw "type", Token.nat 3, Token.rparen] =
      .ok ({ index_span := some 2, index := some (.num 3), ty := FunctionType.empty }, [])
    ∧ TypeUse.parse_allow_names true
        [Token.lparen, Token.kw "param", Token.kw "f32", Token.rparen] =
      .ok ({ index_span := none, index := none,
             ty := { params := [(none, none, .F32)], results := [] } }, [])
    ∧ TypeUse.parse_allow_names true [] =
      .ok ({ index_span := none, index := none, ty := FunctionType.empty }, []) := by
  exact ⟨by decide, by decide, by decide⟩

/-- C10: the parameters-after-results ordering check fires before the
empty-group check: a bare `(param)` group is a no-op before any result,
but after `(result i32)` even the empty `(param)` group is rejected with
the grammar-order violation. -/
theorem c10_order_check_precedes_empty_check :
    FunctionType.finish_parse true FunctionType.empty
        [Token.lparen, Token.kw "param", Token.rparen] =
      .ok (FunctionType.empty, [])
    ∧ FunctionType.finish_parse true FunctionType.empty
        [Token.lparen, Token.kw "result", Token.kw "i32", Token.rparen,
         Token.lparen, Token.kw "param", Token.rparen] =
      .error (.message orderErrMsg) := by
  exact ⟨by decide, by decide⟩

/-- C1: once at least one result value type has been accumulated, a
parenthesized group beginning with the `param` keyword fails with the
grammar-order violation message; the input `(result i32) (param i32)`
fails that way; and the order-violation error is distinct from every
lookahead dispatch failure. -/
theorem c1_param_after_result_is_order_violation :
    (∀ (allowNames : Bool) (acc : FunctionType) (rest : List Token),
        acc.results ≠ [] →
        FunctionType.finish_parse allowNames acc
            (Token.lparen :: Token.kw "param" :: rest) =
          .error (.message orderErrMsg))
    ∧ FunctionType.finish_parse true FunctionType.empty
        [Token.lparen, Token.kw "result", Token.kw "i32", Token.rparen,
         Token.lparen, Token.kw "param", Token.kw "i32", Token.rparen] =
      .error (.message orderErrMsg)
    ∧ ∀ l : List String, PErr.message orderErrMsg ≠ PErr.lookahead l := by
  refine ⟨?_, by decide, fun l h => PErr.noConfusion h⟩
  intro allowNames acc rest h
  have hl : 0 < acc.results.length := List.length_pos.mpr h
  simp [FunctionType.finish_parse, finishParseAux, parens, paramResultGroup,
    peekKw, peek2Kw, hl]

/-- Witness for C1 at a concrete accumulator with one result. -/
theorem c1_witness :
    ({ params := [], results := [ValType.I32] } : FunctionType).results ≠ []
    ∧ FunctionType.finish_parse true { params := [], results := [ValType.I32] }
        [Token.lparen, Token.kw "param", Token.kw "i32", Token.rparen] =
      .error (.message orderErrMsg) :=
  ⟨by decide,
   c1_param_after_result_is_order_violation.1 true
     { params := [], results := [ValType.I32] }
     [Token.kw "i32", Token.rparen] (by decide)⟩

/-- C2: the signature grammar folds repeated param/result groups in
call-site order — `(param i32 i32) (param $x f32) (result i32)` yields two
anonymous i32 parameters, a named f32 parameter, and one i32 result — and
the loop returns the accumulator unchanged, consuming no tokens, as soon
as neither `param` nor `result` passes the double-token lookahead. -/
theorem c2_signature_fold_and_termination :
    FunctionType.finish_parse true FunctionType.empty
        [Token.lparen, Token.kw "param", Token.kw "i32", Token.kw "i32", Token.rparen,
         Token.lparen, Token.kw "param", Token.id "x", Token.kw "f32", Token.rparen,
         Token.lparen, Token.kw "result", Token.kw "i32", Token.rparen] =
      .ok ({ params := [(none, none, .I32), (none, none, .I32), (some "x", none, .F32)],
             results := [.I32] }, [])
    ∧ ∀ (allowNames : Bool) (acc : FunctionType) (ts : List Token),
        peek2Kw "param" ts = false → peek2Kw "result" ts = false →
        FunctionType.finish_parse allowNames acc ts = .ok (acc, ts) := by
  refine ⟨by decide, ?_⟩
  intro allowNames acc ts h1 h2
  simp [FunctionType.finish_parse, finishParseAux, h1, h2]

/-- Witness for C2's termination clause at a concrete non-group token. -/
theorem c2_witness :
    peek2Kw "param" [Token.kw "i32"] = false
    ∧ peek2Kw "result" [Token.kw "i32"] = false
    ∧ FunctionType.finish_parse true FunctionType.empty [Token.kw "i32"] =
        .ok (FunctionType.empty, [Token.kw "i32"]) :=
  ⟨by decide, by decide,
   c2_signature_fold_and_termination.2 true FunctionType.empty [Token.kw "i32"]
     (by decide) (by decide)⟩

/-- C4: in a named param group exactly one value type must follow —
`(param $x i32)` yields the single named parameter, and any further token
before the closing parenthesis (in particular a second value type, as in
`(param $x i32 i32)`) makes the group fail its fully-consumed check. -/
theorem c4_named_param_binds_exactly_one_type :
    FunctionType.finish_parse true FunctionType.empty
        [Token.lparen, Token.kw "param", Token.id "x", Token.kw "i32", Token.rparen] =
      .ok ({ params := [(some "x", none, .I32)], results := [] }, [])
    ∧ ∀ (t : Token) (rest : List Token), t ≠ Token.rparen →
        FunctionType.finish_parse true FunctionType.empty
            (Token.lparen :: Token.kw "param" :: Token.id "x" ::
              Token.kw "i32" :: t :: rest) =
          .error (.lookahead [")"]) := by
  refine ⟨by decide, ?_⟩
  intro t rest ht
  have hg : paramResultGroup true FunctionType.empty
      (Token.kw "param" :: Token.id "x" :: Token.kw "i32" :: t :: rest) =
      .ok ({ params := [(some "x", none, ValType.I32)], results := [] }, t :: rest) := rfl
  have hp := parens_not_closed (paramResultGroup true FunctionType.empty)
    { params := [(some "x", none, ValType.I32)], results := [] }
    (Token.kw "param" :: Token.id "x" :: Token.kw "i32" :: t :: rest) rest t hg ht
  simp [FunctionType.finish_parse, finishParseAux, peek2Kw, hp]

/-- Witness for C4's arity clause: `(param $x i32 i32)` fails. -/
theorem c4_witness :
    Token.kw "i32" ≠ Token.rparen
    ∧ FunctionType.finish_parse true FunctionType.empty
        [Token.lparen, Token.kw "param", Token.id "x", Token.kw "i32",
         Token.kw "i32", Token.rparen] =
      .error (.lookahead [")"]) :=
  ⟨by decide,
   c4_named_param_binds_exactly_one_type.2 (Token.kw "i32") [Token.rparen] (by decide)⟩

/-- C6 (amended): each of the eight value-type keywords maps to exactly its
variant, and a keyword outside the attempted-alternative list fails with a
lookahead error enumerating nine keywords: the eight plus the deprecated
`anyfunc` alias. -/
theorem c6_valtype_keyword_mapping :
    (∀ rest : List Token,
      ValType.parse (Token.kw "i32" :: rest) = .ok (.I32, rest)
      ∧ ValType.parse (Token.kw "i64" :: rest) = .ok (.I64, rest)
      ∧ ValType.parse (Token.kw "f32" :: rest) = .ok (.F32, rest)
      ∧ ValType.parse (Token.kw "f64" :: rest) = .ok (.F64, rest)
      ∧ ValType.parse (Token.kw "anyref" :: rest) = .ok (.Anyref, rest)
      ∧ ValType.parse (Token.kw "funcref" :: rest) = .ok (.Funcref, rest)
      ∧ ValType.parse (Token.kw "v128" :: rest) = .ok (.V128, rest)
      ∧ ValType.parse (Token.kw "nullref" :: rest) = .ok (.Nullref, rest))
    ∧ ∀ (s : String) (rest : List Token), s ∉ valTypeExpected →
        ValType.parse (Token.kw s :: rest) = .error (.lookahead valTypeExpected) := by
  refine ⟨fun rest => ⟨rfl, rfl, rfl, rfl, rfl, rfl, rfl, rfl⟩, ?_⟩
  intro s rest h
  simp only [valTypeExpected, List.mem_cons, List.mem_singleton] at h
  push_neg at h
  obtain ⟨h1, h2, h3, h4, h5, h6, h7, h8, h9⟩ := h
  simp [ValType.parse, peekKw, h1, h2, h3, h4, h5, h6, h7, h8, h9, valTypeExpected]

/-- Witness for C6's failure clause at the unrecognized keyword `i31`. -/
theorem c6_witness :
    "i31" ∉ valTypeExpected
    ∧ ValType.parse [Token.kw "i31"] = .error (.lookahead valTypeExpected) :=
  ⟨by decide, c6_valtype_keyword_mapping.2 "i31" [] (by decide)⟩

/-- C7: `funcref` and the deprecated `anyfunc` alias both parse to the
function-reference variant in the ValueType grammar and in the
ElementType grammar alike, for every continuation of the token stream. -/
theorem c7_anyfunc_alias_yields_funcref :
    ∀ rest : List Token,
      ValType.parse (Token.kw "funcref" :: rest) = .ok (.Funcref, rest)
      ∧ ValType.parse (Token.kw "anyfunc" :: rest) = .ok (.Funcref, rest)
      ∧ TableElemType.parse (Token.kw "funcref" :: rest) = .ok (.Funcref, rest)
      ∧ TableElemType.parse (Token.kw "anyfunc" :: rest) = .ok (.Funcref, rest) :=
  fun _rest => ⟨rfl, rfl, rfl, rfl⟩

/-- C8: `i32` parses to an immutable global type, `(mut i32)` to a mutable
one, and a successful parse can report `mutable = true` only when the
grouped `(mut …)` form was present (the double-token lookahead saw
`mut`); a bare value type always yields immutable. -/
theorem c8_globaltype_mut_iff_grouped :
    GlobalType.parse [Token.kw "i32"] = .ok ({ ty := .I32, mutable := false }, [])
    ∧ GlobalType.parse [Token.lparen, Token.kw "mut", Token.kw "i32", Token.rparen] =
        .ok ({ ty := .I32, mutable := true }, [])
    ∧ ∀ (ts rest : List Token) (g : GlobalType),
        GlobalType.parse ts = .ok (g, rest) → g.mutable = true →
        peek2Kw "mut" ts = true := by
  refine ⟨by decide, by decide, ?_⟩
  intro ts rest g h hm
  by_cases hp : peek2Kw "mut" ts = true
  · exact hp
  · exfalso
    rw [Bool.not_eq_true] at hp
    simp only [GlobalType.parse, hp, Bool.false_eq_true, if_false] at h
    cases hv : ValType.parse ts with
    | error e => rw [hv] at h; simp at h
    | ok p =>
      obtain ⟨ty, rest2⟩ := p
      rw [hv] at h
      simp only [Except.ok.injEq, Prod.mk.injEq] at h
      obtain ⟨hg, -⟩ := h
      rw [← hg] at hm
      simp at hm

/-- Witness for C8's invariant at the `(mut i32)` input. -/
theorem c8_witness :
    GlobalType.parse [Token.lparen, Token.kw "mut", Token.kw "i32", Token.rparen] =
      .ok ({ ty := ValType.I32, mutable := true }, [])
    ∧ ({ ty := ValType.I32, mutable := true } : GlobalType).mutable = true
    ∧ peek2Kw "mut" [Token.lparen, Token.kw "mut", Token.kw "i32", Token.rparen] = true :=
  ⟨by decide, by decide,
   c8_globaltype_mut_iff_grouped.2.2
     [Token.lparen, Token.kw "mut", Token.kw "i32", Token.rparen] []
     { ty := ValType.I32, mutable := true } (by decide) (by decide)⟩

/-- C9: limits parsing reads one required u32 minimum, then takes a maximum
exactly when the next token peeks as a u32: `1` gives an absent maximum,
`1 2` gives maximum 2, and in general a non-u32 continuation leaves the
maximum absent while a second in-range literal becomes the maximum. -/
theorem c9_limits_optional_max :
    Limits.parse [Token.nat 1] = .ok ({ min := 1, max := none }, [])
    ∧ Limits.parse [Token.nat 1, Token.nat 2] = .ok ({ min := 1, max := some 2 }, [])
    ∧ (∀ (n : Nat) (rest : List Token), n < 2 ^ 32 → peekU32 rest = false →
        Limits.parse (Token.nat n :: rest) = .ok ({ min := n, max := none }, rest))
    ∧ ∀ (n m : Nat) (rest : List Token), n < 2 ^ 32 → m < 2 ^ 32 →
        Limits.parse (Token.nat n :: Token.nat m :: rest) =
          .ok ({ min := n, max := some m }, rest) := by
  have h32 : (2 : Nat) ^ 32 = 4294967296 := by norm_num
  refine ⟨by decide, by decide, ?_, ?_⟩
  · intro n rest hn hr
    rw [h32] at hn
    simp [Limits.parse, parseU32, hn, hr]
  · intro n m rest hn hm
    rw [h32] at hn hm
    simp [Limits.parse, parseU32, peekU32, hn, hm]

/-- Witness for C9's general clauses at concrete literals. -/
theorem c9_witness :
    (7 < 2 ^ 32 ∧ peekU32 [] = false
      ∧ Limits.parse [Token.nat 7] = .ok ({ min := 7, max := none }, []))
    ∧ (3 < 2 ^ 32 ∧ 4 < 2 ^ 32
      ∧ Limits.parse [Token.nat 3, Token.nat 4] = .ok ({ min := 3, max := some 4 }, [])) :=
  ⟨⟨by decide, by decide,
    c9_limits_optional_max.2.2.1 7 [] (by decide) (by decide)⟩,
   ⟨by decide, by decide,
    c9_limits_optional_max.2.2.2 3 4 [] (by decide) (by decide)⟩⟩

end Wast
